import Mathlib

/-!
Shallow embedding of the Wikidata coordinate-plausibility checker
(src/coord_checker_ii.py) together with proofs about its pipeline.

Conventions of the embedding:
* Python dictionaries (which preserve insertion order) are modelled as
  association lists with first-match lookup and in-place replacement.
* Python string truthiness (None and the empty string are falsy) is made
  explicit through Option String and emptiness tests.
* Numeric coordinate values are modelled as exact rationals: the script
  converts decimal serializations with float(), and we take the exact
  decimal value of the matched text.
* Network responses (SPARQL bindings, page fetches) are inputs of the
  modelled functions: a batch outcome is either a caught exception
  (Except.error) or the list of result bindings (Except.ok), exactly the
  two ways the try/except blocks of the script can go.
* The geometry library (shapely) is modelled abstractly: a geometry is a
  containment predicate, a planar distance function, and the validity and
  emptiness flags the script consults, plus the result of buffer(0).
-/

namespace CoordChecker

/-- Whitespace as matched by a backslash-s in a Python regular expression:
space, tab, newline, carriage return, vertical tab, form feed. -/
def pyIsSpace (c : Char) : Bool :=
  c = ' ' || c = '\t' || c = '\n' || c = '\r' || c = '\x0b' || c = '\x0c'

/-- Decimal digit test, as the character class 0-9 in the regex. -/
def isDigitChar (c : Char) : Bool := '0' ≤ c && c ≤ '9'

/-- Suffix of a character list after the last slash.  This is the value of
the Python expression s.split(sep)[-1] with sep a single slash: the final
path component, the whole string when no slash occurs, and the empty string
when the string ends with a slash. -/
def afterLastSlash (cs : List Char) : List Char :=
  cs.foldl (fun acc c => if c = '/' then [] else acc ++ [c]) []

/-- QID extraction from an optional URI value, modelling
binding.get(key, default).get("value", "").split("/")[-1] from the script:
a missing field contributes the empty string. -/
def extractQid (v : Option String) : String :=
  ⟨afterLastSlash (v.getD "").data⟩

/-- Python str.strip(): drop whitespace from both ends. -/
def pyStrip (cs : List Char) : List Char :=
  ((cs.dropWhile pyIsSpace).reverse.dropWhile pyIsSpace).reverse

/-- ISO-code normalization applied by the script: iso_code.strip().upper(). -/
def normalizeIso (s : String) : String :=
  ⟨(pyStrip s.data).map Char.toUpper⟩

/-- Lookup in an insertion-ordered association list, the model of reading a
Python dictionary (d.get(k) and the `k in d` test). -/
def dictGet {α : Type} : List (String × α) → String → Option α
  | [], _ => none
  | (k0, v0) :: rest, k => if k0 = k then some v0 else dictGet rest k

/-- Assignment d[k] = v on an insertion-ordered dictionary: an existing key
keeps its position and gets the new value, a new key is appended. -/
def dictInsert {α : Type} : List (String × α) → String → α → List (String × α)
  | [], k, v => [(k, v)]
  | (k0, v0) :: rest, k, v =>
      if k0 = k then (k0, v) :: rest else (k0, v0) :: dictInsert rest k v

/-- Strict lexicographic comparison of character lists by code point, the
ordering Python uses on strings. -/
def charsLt : List Char → List Char → Bool
  | [], [] => false
  | [], _ :: _ => true
  | _ :: _, [] => false
  | a :: as, b :: bs =>
      if a.toNat < b.toNat then true
      else if b.toNat < a.toNat then false
      else charsLt as bs

/-- Python string strict order. -/
def pyStrLt (a b : String) : Bool := charsLt a.data b.data

/-- Python string non-strict order, used as the boolean relation of the
stable sorts in the model. -/
def pyStrLe (a b : String) : Bool := !(pyStrLt b a)

/-- Value of a list of decimal digit characters, most significant first. -/
def digitsToNat (ds : List Char) : Nat :=
  ds.foldl (fun a c => a * 10 + (c.toNat - 48)) 0

/-- Exact rational value of an unsigned decimal token with integer part ds
and fractional part fds (the fractional part may be empty, meaning the
token had no decimal point). -/
def decimalValue (ds fds : List Char) : ℚ :=
  mkRat (digitsToNat ds * 10 ^ fds.length + digitsToNat fds) (10 ^ fds.length)

/-- Parser for the unsigned part of the regex number
(digits-star, optional dot, digits-plus), returning the exact value and the
unconsumed input.  As with the backtracking regex engine, a trailing dot
that is not followed by a digit is left unconsumed when the integer part is
nonempty. -/
def parseNumAfterSign (cs : List Char) : Option (ℚ × List Char) :=
  let d1 := cs.takeWhile isDigitChar
  let r1 := cs.dropWhile isDigitChar
  match r1 with
  | '.' :: rest =>
      let d2 := rest.takeWhile isDigitChar
      let r2 := rest.dropWhile isDigitChar
      if d2 = [] then
        if d1 = [] then none else some (decimalValue d1 [], r1)
      else some (decimalValue d1 d2, r2)
  | _ => if d1 = [] then none else some (decimalValue d1 [], r1)

/-- Parser for one signed number of the coordinate regex:
an optional sign character followed by the unsigned decimal token. -/
def parseNum (cs : List Char) : Option (ℚ × List Char) :=
  match cs with
  | '-' :: rest => (parseNumAfterSign rest).map (fun p => (-p.1, p.2))
  | '+' :: rest => parseNumAfterSign rest
  | _ => parseNumAfterSign cs

/-- Skip a possibly empty run of regex whitespace. -/
def dropSpaces (cs : List Char) : List Char := cs.dropWhile pyIsSpace

/-- Model of re.match with the pattern
Point, open parenthesis, optional space, signed number (lon), mandatory
space, signed number (lat), optional space, close parenthesis.
re.match anchors only at the start, so trailing characters after the close
parenthesis are accepted.  Returns the pair (lon, lat) in the group order
of the regex. -/
def parsePointChars (cs : List Char) : Option (ℚ × ℚ) :=
  match cs with
  | 'P' :: 'o' :: 'i' :: 'n' :: 't' :: '(' :: rest =>
      match parseNum (dropSpaces rest) with
      | none => none
      | some (lon, r2) =>
          match r2 with
          | [] => none
          | c :: r3 =>
              if pyIsSpace c then
                match parseNum (dropSpaces r3) with
                | none => none
                | some (lat, r5) =>
                    match dropSpaces r5 with
                    | ')' :: _ => some (lon, lat)
                    | _ => none
              else none
  | _ => none

/-- String-level coordinate pattern match. -/
def parsePointStr (s : String) : Option (ℚ × ℚ) := parsePointChars s.data

/-- A parsed coordinate, the dictionary with keys lat and lon built by the
script. -/
structure Coord where
  lat : ℚ
  lon : ℚ
deriving DecidableEq, Repr

/-- Coordinate extraction of the detail fetcher: nothing when the field is
absent or empty (Python falsiness of the coord string), nothing when the
regex does not match, the parsed pair when the ranges
-90 ≤ lat ≤ 90 and -180 ≤ lon ≤ 180 hold, and nothing (with a console
warning) otherwise. -/
def parseCoordinate (coordStr : Option String) : Option Coord :=
  match coordStr with
  | none => none
  | some s =>
      if s = "" then none
      else
        match parsePointStr s with
        | none => none
        | some (lon, lat) =>
            if -90 ≤ lat ∧ lat ≤ 90 ∧ -180 ≤ lon ∧ lon ≤ 180 then
              some ⟨lat, lon⟩
            else none

/-- One SPARQL result binding of the item-details query: each field is the
optional value of the corresponding variable. -/
structure Binding where
  item : Option String
  itemLabel : Option String
  coord : Option String
  country : Option String
  countryLabel : Option String
deriving DecidableEq, Repr

/-- The per-item detail record accumulated by the fetcher. -/
structure DetailRec where
  label : Option String
  coordinate : Option Coord
  country_qid : Option String
  country_label : Option String
deriving DecidableEq, Repr

/-- An entry of the item_data dictionary: either the error marker written
when a whole batch failed, or a detail record. -/
inductive RawEntry where
  | err (msg : String)
  | det (r : DetailRec)
deriving DecidableEq, Repr

/-- Reading the previously stored fields of a QID before merging: a missing
entry and an error entry both read as all-None (dict.get on the error
dictionary returns None for the detail keys). -/
def prevOf : Option RawEntry → DetailRec
  | some (.det r) => r
  | _ => ⟨none, none, none, none⟩

/-- Python merge idiom (new if new else old) for an optional string field:
the new value wins only when it is present and nonempty. -/
def pyStrMerge (new old : Option String) : Option String :=
  match new with
  | some s => if s = "" then old else some s
  | none => old

/-- Python merge idiom for the extracted country QID, which at this point
is a plain (possibly empty) string. -/
def pyQidMerge (new : String) (old : Option String) : Option String :=
  if new = "" then old else some new

/-- The per-binding merge of the detail fetcher: every field is overwritten
by the latest binding when that binding supplies a truthy value, and kept
otherwise. -/
def mergeDetail (prev : DetailRec) (b : Binding) : DetailRec where
  label := pyStrMerge b.itemLabel prev.label
  coordinate :=
    match parseCoordinate b.coord with
    | some c => some c
    | none => prev.coordinate
  country_qid := pyQidMerge (extractQid b.country) prev.country_qid
  country_label := pyStrMerge b.countryLabel prev.country_label

/-- Processing of one binding inside a successful batch: extract the QID
(skipping the binding when it is empty), then store the merge of the
previous entry with the binding. -/
def stepBinding (results : List (String × RawEntry)) (b : Binding) :
    List (String × RawEntry) :=
  let qid := extractQid b.item
  if qid = "" then results
  else
    dictInsert results qid (.det (mergeDetail (prevOf (dictGet results qid)) b))

/-- The except-branch of a batch: every QID of the batch that has no entry
yet is marked with the error message of the caught exception. -/
def markBatchError (results : List (String × RawEntry)) (batchQids : List String)
    (msg : String) : List (String × RawEntry) :=
  batchQids.foldl
    (fun m q => if (dictGet m q).isSome then m else dictInsert m q (.err msg))
    results

/-- One loop iteration of get_wikidata_item_details: a batch is its QID list
together with the outcome of its SPARQL query. -/
def processBatch (results : List (String × RawEntry))
    (batch : List String × Except String (List Binding)) :
    List (String × RawEntry) :=
  match batch.2 with
  | .ok bindings => bindings.foldl stepBinding results
  | .error msg => markBatchError results batch.1 msg

/-- Model of get_wikidata_item_details.  The slicing of the QID list into
batches and the network round trips are data of the model: the function
receives the list of batches, each with the outcome of its query, in the
order they are processed, and folds the per-batch processing over them
starting from the empty results dictionary. -/
def get_wikidata_item_details
    (batches : List (List String × Except String (List Binding))) :
    List (String × RawEntry) :=
  batches.foldl processBatch []

/-- One SPARQL result binding of the ISO-code query. -/
structure IsoBinding where
  country : Option String
  isoCode : Option String
deriving DecidableEq, Repr

/-- Processing of one ISO-code binding: both the extracted QID and the code
must be truthy, and only a QID that is not yet in the mapping is inserted,
so the first code seen for a QID wins. -/
def stepIso (m : List (String × String)) (b : IsoBinding) :
    List (String × String) :=
  let qid := extractQid b.country
  match b.isoCode with
  | some code =>
      if qid = "" ∨ code = "" then m
      else if (dictGet m qid).isSome then m
      else m ++ [(qid, normalizeIso code)]
  | none => m

/-- Model of get_iso_codes_for_countries: the batches are the outcomes of
the ISO-code SPARQL queries in processing order; a failed batch only prints
and contributes nothing. -/
def get_iso_codes_for_countries
    (batches : List (Except String (List IsoBinding))) :
    List (String × String) :=
  batches.foldl
    (fun m batch =>
      match batch with
      | .ok bs => bs.foldl stepIso m
      | .error _ => m)
    []

/-- Abstract model of one shapely geometry value: the operations and flags
the script consults.  The containment predicate and the planar distance
function (shapely works in the coordinate units, degrees, not in meters)
take the point as an (x, y) pair, which for the script is
(longitude, latitude). -/
structure GeomData where
  contains : ℚ × ℚ → Bool
  distance : ℚ × ℚ → ℚ
  is_valid : Bool
  is_empty : Bool

/-- A geometry together with the result of its zero-width buffer repair
geom.buffer(0), which the script computes when the geometry is invalid. -/
structure Geometry where
  self : GeomData
  buffer0 : GeomData

/-- Model of the Natural-Earth matching loop of
get_country_geometries_geopandas: for every entry of the ISO mapping, the
first world row whose ISO column equals the code provides the geometry,
which is stored when it is truthy and not empty; missing matches are
skipped.  The world table is modelled as the association list from ISO
code to geometry, in row order. -/
def get_country_geometries_geopandas
    (isoBatches : List (Except String (List IsoBinding)))
    (world : List (String × Geometry)) : List (String × Geometry) :=
  let isoMap := get_iso_codes_for_countries isoBatches
  isoMap.foldl
    (fun geoms p =>
      match dictGet world p.2 with
      | some g => if g.self.is_empty then geoms else geoms ++ [(p.1, g)]
      | none => geoms)
    []

/-- One result row appended by check_coordinates.  For an error entry the
dict.get defaults apply because the detail keys are absent; for a detail
entry the stored (possibly None) values are returned unchanged. -/
structure ResRec where
  qid : String
  label : Option String
  coordinate : Option Coord
  country_qid : Option String
  country_label : Option String
  status : String
  score : Option ℚ
deriving DecidableEq, Repr

/-- The geometry actually tested (geom_to_check in the script): the
geometry itself when valid, otherwise its zero-width buffer when that
repair yields a valid nonempty geometry, otherwise nothing (the
check-error case). -/
def usableGeom (g : Geometry) : Option GeomData :=
  if g.self.is_valid then some g.self
  else if g.buffer0.is_valid && !g.buffer0.is_empty then some g.buffer0
  else none

/-- The status and score computed by the body of the per-item loop of
check_coordinates.  The branches follow the script in order: stage-2 error,
missing coordinate, missing country, missing or empty geometry (an empty
shapely geometry is falsy in Python), then the containment check on the
usable geometry, with the point built as Point(lon, lat). -/
def statusScore (geoms : List (String × Geometry)) (entry : RawEntry) :
    String × Option ℚ :=
  match entry with
  | .err msg => ("Error in Step 2 (" ++ msg ++ ")", none)
  | .det r =>
      match r.coordinate with
      | none => ("Missing Coordinate (P625)", none)
      | some c =>
          match r.country_qid with
          | none => ("Missing Country (P17)", none)
          | some cq =>
              if cq = "" then ("Missing Country (P17)", none)
              else
                match dictGet geoms cq with
                | none =>
                    ("Missing Country Geometry (No ISO code or NE match)", none)
                | some g =>
                    if g.self.is_empty then
                      ("Missing Country Geometry (No ISO code or NE match)", none)
                    else
                      match usableGeom g with
                      | some gg =>
                          if gg.contains (c.lon, c.lat) then ("Inside", some 0)
                          else ("Outside", some (gg.distance (c.lon, c.lat)))
                      | none => ("Invalid Country Geometry (NE)", none)

/-- The result row for one item of item_data. -/
def checkOne (geoms : List (String × Geometry)) (qid : String)
    (entry : RawEntry) : ResRec :=
  let st := statusScore geoms entry
  match entry with
  | .err _ =>
      { qid := qid, label := some "[No Label]", coordinate := none,
        country_qid := none, country_label := some "[No Country Label]",
        status := st.1, score := st.2 }
  | .det r =>
      { qid := qid, label := r.label, coordinate := r.coordinate,
        country_qid := r.country_qid, country_label := r.country_label,
        status := st.1, score := st.2 }

/-- The negated score used as the secondary sort key of Outside rows
(descending score), with the None guard of the script. -/
def negScoreKey (r : ResRec) : ℚ :=
  match r.score with
  | some s => -s
  | none => 0

/-- The sort key of the report: Outside rows first ordered by descending
score, then Inside rows, then everything else ordered by the status text.
The three components encode the Python tuples (0, -score), (1, 0) and
(2, status): components unused by a bucket are constant, so the
lexicographic order of the triples coincides with the Python tuple order. -/
def sortKey (r : ResRec) : Nat × ℚ × String :=
  if r.status = "Outside" then (0, negScoreKey r, "")
  else if r.status = "Inside" then (1, 0, "")
  else (2, 0, r.status)

/-- Lexicographic comparison of two sort-key triples, the order Python uses
on the key tuples. -/
def keyLE (x y : Nat × ℚ × String) : Bool :=
  if x.1 ≠ y.1 then decide (x.1 < y.1)
  else if x.2.1 ≠ y.2.1 then decide (x.2.1 < y.2.1)
  else pyStrLe x.2.2 y.2.2

/-- Boolean comparison of two result rows by lexicographic order of their
sort keys; list.sort in Python is a stable sort by exactly this order. -/
def sortLE (a b : ResRec) : Bool := keyLE (sortKey a) (sortKey b)

/-- Model of check_coordinates: build one result row per entry of
item_data in dictionary order, then sort stably by the report key. -/
def check_coordinates (item_data : List (String × RawEntry))
    (geoms : List (String × Geometry)) : List ResRec :=
  (item_data.map (fun p => checkOne geoms p.1 p.2)).mergeSort sortLE

/-- Attempt to match the token pattern (two open brackets, the letter Q,
one or more digits, two close brackets) at the head of the input, returning
the captured QID and the rest of the input after the match. -/
def tryMatchQid (cs : List Char) : Option (String × List Char) :=
  match cs with
  | '[' :: '[' :: 'Q' :: rest =>
      let ds := rest.takeWhile isDigitChar
      match rest.dropWhile isDigitChar with
      | ']' :: ']' :: r3 => if ds = [] then none else some (⟨'Q' :: ds⟩, r3)
      | _ => none
  | _ => none

/-- Scanner for re.findall with the QID token pattern: try a match at every
position, emit the capture and continue after a match, advance one
character otherwise.  The fuel argument bounds the number of steps by the
input length, which suffices because every step consumes at least one
character. -/
def findQidAux : Nat → List Char → List String
  | 0, _ => []
  | _, [] => []
  | fuel + 1, c :: rest =>
      match tryMatchQid (c :: rest) with
      | some (tok, r3) => tok :: findQidAux fuel r3
      | none => findQidAux fuel rest

/-- All QID tokens of a wikitext, left to right, non-overlapping. -/
def findQidTokens (cs : List Char) : List String := findQidAux cs.length cs

/-- Model of get_qids_from_wikitext: a transport error (or a bad HTTP
status raised by raise_for_status) is caught and degrades to the empty
list; otherwise the found QIDs are deduplicated and sorted. -/
def get_qids_from_wikitext (fetch : Except String String) : List String :=
  match fetch with
  | .error _ => []
  | .ok wikitext =>
      ((findQidTokens wikitext.data).eraseDups).mergeSort pyStrLe

/-- Observable outcome of one run of the main block: whether stage 2 was
entered, the final sorted report (empty when the run halted early), and the
early-halt console message when there was nothing to process. -/
structure RunOutcome where
  ranStep2 : Bool
  report : List ResRec
  haltMessage : Option String
deriving Repr

/-- The unique country QIDs collected by the main block before stage 3:
detail entries only, error entries and falsy country QIDs excluded. -/
def uniqueCountryQids (item_data : List (String × RawEntry)) : List String :=
  (item_data.filterMap
    (fun p =>
      match p.2 with
      | .err _ => none
      | .det r =>
          match r.country_qid with
          | some c => if c = "" then none else some c
          | none => none)).eraseDups

/-- Model of the main block.  The page fetch outcome, the per-batch detail
query outcomes, the ISO-code query outcomes and the Natural-Earth table are
the external inputs of the run.  An empty QID list halts before stage 2
with the nothing-to-process message; an empty item_data dictionary halts
after stage 2; otherwise the full report is produced. -/
def mainRun (fetch : Except String String)
    (detailBatches : List (List String × Except String (List Binding)))
    (isoBatches : List (Except String (List IsoBinding)))
    (world : List (String × Geometry)) : RunOutcome :=
  let qids := get_qids_from_wikitext fetch
  if qids.isEmpty then
    { ranStep2 := false, report := [],
      haltMessage := some "Could not fetch QIDs (Step 1), script cannot run." }
  else
    let item_data := get_wikidata_item_details detailBatches
    if item_data.isEmpty then
      { ranStep2 := true, report := [],
        haltMessage :=
          some "Could not fetch item details (Step 2), processing halted." }
    else
      let geoms :=
        if (uniqueCountryQids item_data).isEmpty then []
        else get_country_geometries_geopandas isoBatches world
      { ranStep2 := true, report := check_coordinates item_data geoms,
        haltMessage := none }

/-!
Derived notions used to state properties of the pipeline.
-/

/-- The ISO-code bindings of the successful batches, in processing order
(failed batches contribute nothing). -/
def okIsoBindings : List (Except String (List IsoBinding)) → List IsoBinding
  | [] => []
  | .ok bs :: rest => bs ++ okIsoBindings rest
  | .error _ :: rest => okIsoBindings rest

/-- The code values bound to a given country QID, in processing order,
keeping only bindings the script acts on (code present and truthy). -/
def codeBindingsFor (qid : String) (bs : List IsoBinding) : List String :=
  bs.filterMap
    (fun b =>
      match b.isoCode with
      | some code =>
          if extractQid b.country = qid ∧ code ≠ "" then some code else none
      | none => none)

/-- A batch is scoped when every binding of a successful outcome concerns a
QID of the batch (or the empty QID, which the loop skips).  The VALUES
clause of the SPARQL query guarantees this for real responses. -/
def scopedBatch (B : List String × Except String (List Binding)) : Prop :=
  ∀ bs, B.2 = Except.ok bs →
    ∀ b ∈ bs, extractQid b.item = "" ∨ extractQid b.item ∈ B.1

/-- Structured form of one number token of the coordinate regex: an
optional sign character (false for plus, true for minus), the digits of the
integer part, and optionally the digits after the decimal point. -/
structure NumTok where
  sign : Option Bool
  intDs : List Char
  frac : Option (List Char)

/-- Characters of the optional sign. -/
def signChars : Option Bool → List Char
  | none => []
  | some false => ['+']
  | some true => ['-']

/-- Characters of the optional fractional part, with its leading dot. -/
def fracChars : Option (List Char) → List Char
  | none => []
  | some f => '.' :: f

/-- The serialization of a number token. -/
def renderNumChars (t : NumTok) : List Char :=
  signChars t.sign ++ t.intDs ++ fracChars t.frac

/-- The serialization of a number token, as a string. -/
def renderNum (t : NumTok) : String := ⟨renderNumChars t⟩

/-- Magnitude denoted by a number token. -/
def numTokMag (t : NumTok) : ℚ :=
  match t.frac with
  | none => decimalValue t.intDs []
  | some f => decimalValue t.intDs f

/-- Exact value denoted by a number token. -/
def numTokVal (t : NumTok) : ℚ :=
  if t.sign = some true then -numTokMag t else numTokMag t

/-- Well-formedness of a number token: all characters are digits, a
fractional part is nonempty, and a token without fractional part has a
nonempty integer part (the shapes matched by the regex). -/
def wfNumTok (t : NumTok) : Bool :=
  t.intDs.all isDigitChar &&
    (match t.frac with
     | none => !t.intDs.isEmpty
     | some f => !f.isEmpty && f.all isDigitChar)

/-- The canonical coordinate serialization of two number tokens, longitude
first, as produced by the Wikidata WKT output. -/
def mkPointString (tlon tlat : NumTok) : String :=
  "Point(" ++ renderNum tlon ++ " " ++ renderNum tlat ++ ")"

/-!
Concrete sample data used by the closed witnesses below.
-/

/-- A valid nonempty geometry that contains every point and has constant
distance 3. -/
def trueGeomData : GeomData := ⟨fun _ => true, fun _ => 3, true, false⟩

/-- Sample geometry whose containment test always succeeds. -/
def insideGeom : Geometry := ⟨trueGeomData, trueGeomData⟩

/-- A valid nonempty geometry that contains no point and whose distance to
a point is the first (longitude) component of the point. -/
def lonGeomData : GeomData := ⟨fun _ => false, fun p => p.1, true, false⟩

/-- Sample geometry whose containment test always fails. -/
def outsideGeom : Geometry := ⟨lonGeomData, lonGeomData⟩

/-!
Theorems.  First some shared lemmas about the dictionary model.
-/

theorem dictGet_dictInsert_self {α : Type} (m : List (String × α)) (k : String)
    (v : α) : dictGet (dictInsert m k v) k = some v := by
  induction m with
  | nil => simp [dictInsert, dictGet]
  | cons p rest ih =>
      by_cases h : p.1 = k
      · simp [dictInsert, dictGet, h]
      · simpa [dictInsert, dictGet, h] using ih

theorem dictGet_dictInsert_ne {α : Type} (m : List (String × α)) (k q : String)
    (v : α) (h : k ≠ q) : dictGet (dictInsert m k v) q = dictGet m q := by
  induction m with
  | nil => simp [dictInsert, dictGet, h]
  | cons p rest ih =>
      obtain ⟨k0, v0⟩ := p
      by_cases hp : k0 = k
      · subst hp
        simp [dictInsert, dictGet, h]
      · by_cases hq : k0 = q <;>
          simp [dictInsert, dictGet, hp, hq, Ne.symm h, ih]

theorem dictGet_append {α : Type} (m l : List (String × α)) (q : String) :
    dictGet (m ++ l) q =
      match dictGet m q with
      | some v => some v
      | none => dictGet l q := by
  induction m with
  | nil => simp [dictGet]
  | cons p rest ih =>
      by_cases hp : p.1 = q <;> simp [dictGet, hp, ih]

/-- C4: the Containment-Scorer assigns the status of every record by the
precedence of the script: a stage-2 fetch error gives the fetch-error
status; otherwise a missing coordinate gives the missing-coordinate status;
otherwise a missing (or falsy) claimed country gives the missing-country
status; otherwise a country with no resolved (or empty) geometry gives the
missing-geometry status; and only records passing all four checks reach the
containment test, whose only statuses are Inside, Outside and the
invalid-geometry marker. -/
theorem checkOne_status_precedence (geoms : List (String × Geometry))
    (qid : String) (entry : RawEntry) :
    (∀ msg, entry = .err msg →
      (checkOne geoms qid entry).status = "Error in Step 2 (" ++ msg ++ ")") ∧
    (∀ r, entry = .det r → r.coordinate = none →
      (checkOne geoms qid entry).status = "Missing Coordinate (P625)") ∧
    (∀ r, entry = .det r → r.coordinate ≠ none →
      (r.country_qid = none ∨ r.country_qid = some "") →
      (checkOne geoms qid entry).status = "Missing Country (P17)") ∧
    (∀ r c cq, entry = .det r → r.coordinate = some c →
      r.country_qid = some cq → cq ≠ "" →
      (dictGet geoms cq = none ∨
        ∃ g, dictGet geoms cq = some g ∧ g.self.is_empty = true) →
      (checkOne geoms qid entry).status =
        "Missing Country Geometry (No ISO code or NE match)") ∧
    (∀ r c cq g, entry = .det r → r.coordinate = some c →
      r.country_qid = some cq → cq ≠ "" →
      dictGet geoms cq = some g → g.self.is_empty = false →
      (checkOne geoms qid entry).status = "Inside" ∨
      (checkOne geoms qid entry).status = "Outside" ∨
      (checkOne geoms qid entry).status = "Invalid Country Geometry (NE)") := by
  refine ⟨?_, ?_, ?_, ?_, ?_⟩
  · rintro msg rfl
    simp [checkOne, statusScore]
  · rintro r rfl hc
    simp [checkOne, statusScore, hc]
  · rintro r rfl hc hcq
    obtain ⟨c, hc⟩ := Option.ne_none_iff_exists.mp hc
    rcases hcq with h | h <;> simp [checkOne, statusScore, ← hc, h]
  · rintro r c cq rfl hc hcq hne hg
    rcases hg with h | ⟨g, hg, hemp⟩
    · simp [checkOne, statusScore, hc, hcq, hne, h]
    · simp [checkOne, statusScore, hc, hcq, hne, hg, hemp]
  · rintro r c cq g rfl hc hcq hne hg hemp
    simp only [checkOne, statusScore, hc, hcq, hne, hg, hemp, Bool.false_eq_true,
      if_false]
    cases hu : usableGeom g with
    | none => simp
    | some gg => by_cases hcont : gg.contains (c.lon, c.lat) <;> simp [hcont]

/-- Closed witness for C4: each branch of the precedence theorem applied at
a concrete record. -/
theorem checkOne_status_precedence_witness :
    (checkOne [] "Q1" (.err "boom")).status = "Error in Step 2 (boom)" ∧
    (checkOne [] "Q2" (.det ⟨some "A", none, some "Q9", none⟩)).status =
      "Missing Coordinate (P625)" ∧
    (checkOne [] "Q3" (.det ⟨none, some ⟨1, 2⟩, none, none⟩)).status =
      "Missing Country (P17)" ∧
    (checkOne [] "Q4" (.det ⟨none, some ⟨1, 2⟩, some "Q9", none⟩)).status =
      "Missing Country Geometry (No ISO code or NE match)" ∧
    ((checkOne [("Q9", insideGeom)] "Q5"
        (.det ⟨none, some ⟨1, 2⟩, some "Q9", none⟩)).status = "Inside" ∨
      (checkOne [("Q9", insideGeom)] "Q5"
        (.det ⟨none, some ⟨1, 2⟩, some "Q9", none⟩)).status = "Outside" ∨
      (checkOne [("Q9", insideGeom)] "Q5"
        (.det ⟨none, some ⟨1, 2⟩, some "Q9", none⟩)).status =
        "Invalid Country Geometry (NE)") :=
  ⟨(checkOne_status_precedence [] "Q1" (.err "boom")).1 "boom" rfl,
    (checkOne_status_precedence [] "Q2"
      (.det ⟨some "A", none, some "Q9", none⟩)).2.1 _ rfl rfl,
    (checkOne_status_precedence [] "Q3"
      (.det ⟨none, some ⟨1, 2⟩, none, none⟩)).2.2.1 _ rfl (by simp)
      (Or.inl rfl),
    (checkOne_status_precedence [] "Q4"
      (.det ⟨none, some ⟨1, 2⟩, some "Q9", none⟩)).2.2.2.1 _ ⟨1, 2⟩ "Q9" rfl
      rfl rfl (by decide) (Or.inl rfl),
    (checkOne_status_precedence [("Q9", insideGeom)] "Q5"
      (.det ⟨none, some ⟨1, 2⟩, some "Q9", none⟩)).2.2.2.2 _ ⟨1, 2⟩ "Q9"
      insideGeom rfl rfl rfl (by decide) rfl rfl⟩

/-- C3: on the containment path (coordinate present, claimed country
present, usable resolved geometry), the test point is built with longitude
as first and latitude as second component; containment yields status Inside
with score zero, non-containment yields status Outside with score equal to
the planar distance (in the degree units of the data, as shapely computes
it) from that point to the geometry. -/
theorem checkOne_containment (geoms : List (String × Geometry)) (qid : String)
    (r : DetailRec) (c : Coord) (cq : String) (g : Geometry) (gg : GeomData)
    (hc : r.coordinate = some c) (hcq : r.country_qid = some cq)
    (hne : cq ≠ "") (hg : dictGet geoms cq = some g)
    (hemp : g.self.is_empty = false) (hgg : usableGeom g = some gg) :
    (gg.contains (c.lon, c.lat) = true →
      (checkOne geoms qid (.det r)).status = "Inside" ∧
      (checkOne geoms qid (.det r)).score = some 0) ∧
    (gg.contains (c.lon, c.lat) = false →
      (checkOne geoms qid (.det r)).status = "Outside" ∧
      (checkOne geoms qid (.det r)).score =
        some (gg.distance (c.lon, c.lat))) := by
  constructor <;> intro hcont <;>
    simp [checkOne, statusScore, hc, hcq, hne, hg, hemp, hgg, hcont]

/-- Closed witness for C3: a geometry containing the point of its record
and one not containing it, with the distance function evaluated at the
(lon, lat) point. -/
theorem checkOne_containment_witness :
    ((checkOne [("Q9", insideGeom)] "Q5"
        (.det ⟨none, some ⟨1, 2⟩, some "Q9", none⟩)).status = "Inside" ∧
      (checkOne [("Q9", insideGeom)] "Q5"
        (.det ⟨none, some ⟨1, 2⟩, some "Q9", none⟩)).score = some 0) ∧
    ((checkOne [("Q9", outsideGeom)] "Q5"
        (.det ⟨none, some ⟨1, 2⟩, some "Q9", none⟩)).status = "Outside" ∧
      (checkOne [("Q9", outsideGeom)] "Q5"
        (.det ⟨none, some ⟨1, 2⟩, some "Q9", none⟩)).score = some 2) :=
  ⟨(checkOne_containment [("Q9", insideGeom)] "Q5"
      ⟨none, some ⟨1, 2⟩, some "Q9", none⟩ ⟨1, 2⟩ "Q9" insideGeom trueGeomData
      rfl rfl (by decide) rfl rfl rfl).1 rfl,
   (checkOne_containment [("Q9", outsideGeom)] "Q5"
      ⟨none, some ⟨1, 2⟩, some "Q9", none⟩ ⟨1, 2⟩ "Q9" outsideGeom lonGeomData
      rfl rfl (by decide) rfl rfl rfl).2 rfl⟩

/-- C10: in the per-identifier merge of the Entity-Detail-Fetcher, a later
binding replaces the stored value of a field only when it supplies a truthy
value for that field; an omitted field, a coordinate that fails the pattern
match, and an out-of-range coordinate all leave the previously stored value
in place, so the fields of one record can come from different bindings. -/
theorem stepBinding_merge (m : List (String × RawEntry)) (b : Binding)
    (qid : String) (r : DetailRec) (hq : extractQid b.item = qid)
    (hne : qid ≠ "") (hm : dictGet m qid = some (.det r)) :
    dictGet (stepBinding m b) qid = some (.det (mergeDetail r b)) ∧
    ((b.itemLabel = none ∨ b.itemLabel = some "") →
      (mergeDetail r b).label = r.label) ∧
    (parseCoordinate b.coord = none →
      (mergeDetail r b).coordinate = r.coordinate) ∧
    (b.coord = none → parseCoordinate b.coord = none) ∧
    (∀ s, b.coord = some s → s ≠ "" → parsePointStr s = none →
      parseCoordinate b.coord = none) ∧
    (∀ s lon lat, b.coord = some s → s ≠ "" →
      parsePointStr s = some (lon, lat) →
      ¬(-90 ≤ lat ∧ lat ≤ 90 ∧ -180 ≤ lon ∧ lon ≤ 180) →
      parseCoordinate b.coord = none) ∧
    (extractQid b.country = "" →
      (mergeDetail r b).country_qid = r.country_qid) ∧
    ((b.countryLabel = none ∨ b.countryLabel = some "") →
      (mergeDetail r b).country_label = r.country_label) ∧
    (∀ s, b.itemLabel = some s → s ≠ "" → (mergeDetail r b).label = some s) ∧
    (∀ c, parseCoordinate b.coord = some c →
      (mergeDetail r b).coordinate = some c) ∧
    (extractQid b.country ≠ "" →
      (mergeDetail r b).country_qid = some (extractQid b.country)) ∧
    (∀ s, b.countryLabel = some s → s ≠ "" →
      (mergeDetail r b).country_label = some s) := by
  refine ⟨?_, ?_, ?_, ?_, ?_, ?_, ?_, ?_, ?_, ?_, ?_, ?_⟩
  · rw [stepBinding, hq]
    simp only [hne, if_false, hm, prevOf]
    exact dictGet_dictInsert_self m qid _
  · rintro (h | h) <;> simp [mergeDetail, pyStrMerge, h]
  · intro h
    simp [mergeDetail, h]
  · intro h
    simp [parseCoordinate, h]
  · intro s hb hs h
    simp [parseCoordinate, hb, hs, h]
  · intro s lon lat hb hs h hrange
    simp [parseCoordinate, hb, hs, h, hrange]
  · intro h
    simp [mergeDetail, pyQidMerge, h]
  · rintro (h | h) <;> simp [mergeDetail, pyStrMerge, h]
  · intro s hb hs
    simp [mergeDetail, pyStrMerge, hb, hs]
  · intro c h
    simp [mergeDetail, h]
  · intro h
    simp [mergeDetail, pyQidMerge, h]
  · intro s hb hs
    simp [mergeDetail, pyStrMerge, hb, hs]

/-- Closed witness for C10: a stored record whose later binding omits the
label, carries an unparsable coordinate and an empty country URI, but a
fresh country label; only the country label is replaced. -/
theorem stepBinding_merge_witness :
    dictGet
      (stepBinding [("Q1", .det ⟨some "A", some ⟨1, 2⟩, some "Q7", some "C"⟩)]
        ⟨some "http://e/Q1", none, some "bogus", some "", some "D"⟩) "Q1" =
      some (.det (mergeDetail ⟨some "A", some ⟨1, 2⟩, some "Q7", some "C"⟩
        ⟨some "http://e/Q1", none, some "bogus", some "", some "D"⟩)) ∧
    mergeDetail ⟨some "A", some ⟨1, 2⟩, some "Q7", some "C"⟩
        ⟨some "http://e/Q1", none, some "bogus", some "", some "D"⟩ =
      ⟨some "A", some ⟨1, 2⟩, some "Q7", some "D"⟩ :=
  ⟨(stepBinding_merge [("Q1", .det ⟨some "A", some ⟨1, 2⟩, some "Q7", some "C"⟩)]
      ⟨some "http://e/Q1", none, some "bogus", some "", some "D"⟩ "Q1"
      ⟨some "A", some ⟨1, 2⟩, some "Q7", some "C"⟩ (by decide) (by decide)
      rfl).1,
   by decide⟩

theorem get_iso_eq_foldl_flat (batches : List (Except String (List IsoBinding))) :
    get_iso_codes_for_countries batches = (okIsoBindings batches).foldl stepIso [] := by
  suffices h : ∀ (bs : List (Except String (List IsoBinding)))
      (m : List (String × String)),
      bs.foldl
        (fun m batch =>
          match batch with
          | .ok l => l.foldl stepIso m
          | .error _ => m) m = (okIsoBindings bs).foldl stepIso m by
    exact h batches []
  intro bs
  induction bs with
  | nil => intro m; rfl
  | cons hd tl ih =>
      intro m
      cases hd with
      | ok l => simp [okIsoBindings, List.foldl_append, ih]
      | error e => simp [okIsoBindings, ih]

theorem dictGet_stepIso_preserve (m : List (String × String)) (b : IsoBinding)
    (q : String) (v : String) (h : dictGet m q = some v) :
    dictGet (stepIso m b) q = some v := by
  rw [stepIso]
  cases b.isoCode with
  | none => exact h
  | some code =>
      simp only
      by_cases hcond : extractQid b.country = "" ∨ code = ""
      · simp [hcond, h]
      · simp only [hcond, if_false]
        by_cases hmem : (dictGet m (extractQid b.country)).isSome
        · simp [hmem, h]
        · simp only [hmem, Bool.false_eq_true, if_false]
          rw [dictGet_append, h]

theorem dictGet_foldl_stepIso_preserve (bs : List IsoBinding)
    (m : List (String × String)) (q : String) (v : String)
    (h : dictGet m q = some v) :
    dictGet (bs.foldl stepIso m) q = some v := by
  induction bs generalizing m with
  | nil => exact h
  | cons b rest ih => exact ih _ (dictGet_stepIso_preserve m b q v h)

theorem dictGet_foldl_stepIso_first (bs : List IsoBinding) (qid : String)
    (code : String) (codes : List String) (m : List (String × String))
    (hne : qid ≠ "") (hnone : dictGet m qid = none)
    (hfirst : codeBindingsFor qid bs = code :: codes) :
    dictGet (bs.foldl stepIso m) qid = some (normalizeIso code) := by
  induction bs generalizing m with
  | nil => simp [codeBindingsFor] at hfirst
  | cons b rest ih =>
      rw [List.foldl_cons]
      cases hco : b.isoCode with
      | none =>
          have hstep : stepIso m b = m := by rw [stepIso, hco]
          rw [hstep]
          refine ih _ hnone ?_
          rw [codeBindingsFor, List.filterMap_cons] at hfirst
          rw [hco] at hfirst
          exact hfirst
      | some c0 =>
          by_cases hact : extractQid b.country = qid ∧ c0 ≠ ""
          · have hcons : codeBindingsFor qid (b :: rest) =
                c0 :: codeBindingsFor qid rest := by
              simp [codeBindingsFor, List.filterMap_cons, hco, hact.1, hact.2]
            rw [hcons] at hfirst
            injection hfirst with h1 h2
            subst h1
            have hstep : stepIso m b = m ++ [(qid, normalizeIso c0)] := by
              rw [stepIso, hco]
              simp [hact.1, hne, hact.2, hnone]
            rw [hstep]
            refine dictGet_foldl_stepIso_preserve rest _ qid _ ?_
            rw [dictGet_append, hnone]
            simp [dictGet]
          · have hskip : codeBindingsFor qid (b :: rest) = codeBindingsFor qid rest := by
              simp only [codeBindingsFor, List.filterMap_cons, hco, hact, if_false]
            rw [hskip] at hfirst
            refine ih _ ?_ hfirst
            rw [stepIso, hco]
            simp only
            by_cases hcond : extractQid b.country = "" ∨ c0 = ""
            · simp [hcond, hnone]
            · simp only [hcond, if_false]
              by_cases hmem : (dictGet m (extractQid b.country)).isSome
              · simp [hmem, hnone]
              · simp only [hmem, Bool.false_eq_true, if_false]
                rw [dictGet_append, hnone]
                have hqne : extractQid b.country ≠ qid := by
                  intro heq
                  rcases not_or.mp hcond with ⟨-, hc0⟩
                  exact hact ⟨heq, hc0⟩
                simp [dictGet, hqne]

theorem okIsoBindings_append (l1 l2 : List (Except String (List IsoBinding))) :
    okIsoBindings (l1 ++ l2) = okIsoBindings l1 ++ okIsoBindings l2 := by
  induction l1 with
  | nil => rfl
  | cons hd tl ih =>
      cases hd with
      | ok l => simp [okIsoBindings, ih]
      | error e => simp [okIsoBindings, ih]

/-- C2: country-code resolution is first-match-wins.  For a country QID,
the resolved code is the normalization of the first truthy code binding
encountered across the successful batches, and appending any further
batches with conflicting bindings never changes it. -/
theorem iso_first_code_wins (batches : List (Except String (List IsoBinding)))
    (qid : String) (code : String) (codes : List String) (hne : qid ≠ "")
    (hfirst : codeBindingsFor qid (okIsoBindings batches) = code :: codes) :
    dictGet (get_iso_codes_for_countries batches) qid =
      some (normalizeIso code) ∧
    ∀ extra, dictGet (get_iso_codes_for_countries (batches ++ extra)) qid =
      some (normalizeIso code) := by
  have hbase : dictGet (get_iso_codes_for_countries batches) qid =
      some (normalizeIso code) := by
    rw [get_iso_eq_foldl_flat]
    exact dictGet_foldl_stepIso_first _ qid code codes [] hne (by rfl) hfirst
  refine ⟨hbase, fun extra => ?_⟩
  rw [get_iso_eq_foldl_flat, okIsoBindings_append, List.foldl_append]
  refine dictGet_foldl_stepIso_preserve _ _ qid _ ?_
  rw [← get_iso_eq_foldl_flat]
  exact hbase

/-- Closed witness for C2: two batches bind conflicting codes to the same
country; the resolved code is the normalized first one, and stays so when
a third conflicting batch is appended. -/
theorem iso_first_code_wins_witness :
    dictGet
      (get_iso_codes_for_countries
        [.ok [⟨some "http://e/Q7", some "fra"⟩],
         .ok [⟨some "http://e/Q7", some "DEU"⟩]]) "Q7" =
      some (normalizeIso "fra") ∧
    (∀ extra,
      dictGet
        (get_iso_codes_for_countries
          ([.ok [⟨some "http://e/Q7", some "fra"⟩],
            .ok [⟨some "http://e/Q7", some "DEU"⟩]] ++ extra)) "Q7" =
        some (normalizeIso "fra")) ∧
    normalizeIso "fra" = "FRA" :=
  ⟨(iso_first_code_wins
      [.ok [⟨some "http://e/Q7", some "fra"⟩],
       .ok [⟨some "http://e/Q7", some "DEU"⟩]] "Q7" "fra" ["DEU"]
      (by decide) (by decide)).1,
   (iso_first_code_wins
      [.ok [⟨some "http://e/Q7", some "fra"⟩],
       .ok [⟨some "http://e/Q7", some "DEU"⟩]] "Q7" "fra" ["DEU"]
      (by decide) (by decide)).2,
   by decide⟩

theorem foldl_stepBinding_untouched (l : List Binding)
    (m : List (String × RawEntry)) (qid : String)
    (h : ∀ b2 ∈ l, extractQid b2.item ≠ qid) :
    dictGet (l.foldl stepBinding m) qid = dictGet m qid := by
  induction l generalizing m with
  | nil => rfl
  | cons b rest ih =>
      rw [List.foldl_cons, ih _ (fun b2 hb2 => h b2 (List.mem_cons_of_mem b hb2))]
      rw [stepBinding]
      by_cases hb : extractQid b.item = ""
      · simp [hb]
      · simp only [hb, if_false]
        exact dictGet_dictInsert_ne m _ qid _ (h b (List.mem_cons_self b rest))

/-- C1: entity-detail merging is last-match-wins.  Within one successful
batch, when the last binding processed for an identifier carries a truthy
value for every field (label, parsable in-range coordinate, country QID,
country label), the resulting record consists exactly of the values of that
last binding, whatever conflicting values earlier bindings carried. -/
theorem details_last_binding_wins (qids : List String) (l1 l2 : List Binding)
    (b : Binding) (qid lab cq cl : String) (c : Coord)
    (hq : extractQid b.item = qid) (hne : qid ≠ "")
    (hlast : ∀ b2 ∈ l2, extractQid b2.item ≠ qid)
    (hlab : b.itemLabel = some lab) (hlabne : lab ≠ "")
    (hc : parseCoordinate b.coord = some c)
    (hcq : extractQid b.country = cq) (hcqne : cq ≠ "")
    (hcl : b.countryLabel = some cl) (hclne : cl ≠ "") :
    dictGet (get_wikidata_item_details [(qids, .ok (l1 ++ b :: l2))]) qid =
      some (.det ⟨some lab, some c, some cq, some cl⟩) := by
  rw [get_wikidata_item_details, List.foldl_cons, List.foldl_nil, processBatch]
  simp only
  rw [List.foldl_append, List.foldl_cons,
    foldl_stepBinding_untouched l2 _ qid hlast, stepBinding, hq]
  simp only [hne, if_false]
  rw [dictGet_dictInsert_self]
  congr 1
  congr 1
  simp [mergeDetail, pyStrMerge, pyQidMerge, hlab, hlabne, hc, hcq, hcqne,
    hcl, hclne]

/-- Closed witness for C1: a batch with two conflicting bindings for the
same identifier; every field of the result comes from the second one. -/
theorem details_last_binding_wins_witness :
    dictGet
      (get_wikidata_item_details
        [(["Q1"],
          .ok
            [⟨some "Q1", some "Old", some "Point(10 20)", some "http://e/Q5",
              some "CountryOld"⟩,
             ⟨some "http://e/Q1", some "New", some "Point(30 40)", some "Q6",
              some "CountryNew"⟩])]) "Q1" =
      some (.det ⟨some "New", some ⟨40, 30⟩, some "Q6", some "CountryNew"⟩) :=
  details_last_binding_wins ["Q1"]
    [⟨some "Q1", some "Old", some "Point(10 20)", some "http://e/Q5",
      some "CountryOld"⟩] []
    ⟨some "http://e/Q1", some "New", some "Point(30 40)", some "Q6",
      some "CountryNew"⟩
    "Q1" "New" "Q6" "CountryNew" ⟨40, 30⟩ (by decide) (by decide)
    (by intro b2 hb2; cases hb2) rfl (by decide) (by decide) (by decide)
    (by decide) rfl (by decide)

theorem dictGet_stepBinding (m : List (String × RawEntry)) (b : Binding)
    (q : String) :
    dictGet (stepBinding m b) q =
      if extractQid b.item = "" then dictGet m q
      else if extractQid b.item = q then
        some (.det (mergeDetail (prevOf (dictGet m q)) b))
      else dictGet m q := by
  by_cases h0 : extractQid b.item = ""
  · simp [stepBinding, h0]
  · by_cases h1 : extractQid b.item = q
    · have hqne : q ≠ "" := by rw [← h1]; exact h0
      simp [stepBinding, h0, h1, hqne, dictGet_dictInsert_self]
    · simp [stepBinding, h0, h1, dictGet_dictInsert_ne m _ q _ h1]

theorem dictGet_markBatchError (m : List (String × RawEntry))
    (qids : List String) (msg : String) (q : String) :
    dictGet (markBatchError m qids msg) q =
      match dictGet m q with
      | some v => some v
      | none => if q ∈ qids then some (RawEntry.err msg) else none := by
  induction qids generalizing m with
  | nil => cases h : dictGet m q <;> simp [markBatchError, h]
  | cons q2 rest ih =>
      have hstep : markBatchError m (q2 :: rest) msg =
          markBatchError
            (if (dictGet m q2).isSome then m else dictInsert m q2 (.err msg))
            rest msg := rfl
      rw [hstep]
      by_cases h2 : (dictGet m q2).isSome
      · simp only [h2, if_true]
        rw [ih]
        cases h : dictGet m q
        · by_cases hq : q = q2
          · subst hq
            rw [h] at h2
            simp at h2
          · simp [List.mem_cons, hq]
        · simp
      · simp only [h2, Bool.false_eq_true, if_false]
        rw [ih]
        have hnone : dictGet m q2 = none := by
          cases h : dictGet m q2
          · rfl
          · rw [h] at h2; simp at h2
        by_cases hq : q2 = q
        · subst hq
          rw [dictGet_dictInsert_self, hnone]
          simp
        · rw [dictGet_dictInsert_ne _ _ _ _ hq]
          cases h : dictGet m q
          · simp [List.mem_cons, Ne.symm hq]
          · simp

theorem dictGet_processBatch_congr
    (B : List String × Except String (List Binding))
    (m1 m2 : List (String × RawEntry)) (q : String)
    (h : dictGet m1 q = dictGet m2 q) :
    dictGet (processBatch m1 B) q = dictGet (processBatch m2 B) q := by
  obtain ⟨bqs, out⟩ := B
  cases out with
  | error msg =>
      simp only [processBatch]
      rw [dictGet_markBatchError, dictGet_markBatchError, h]
  | ok bs =>
      simp only [processBatch]
      induction bs generalizing m1 m2 with
      | nil => exact h
      | cons b rest ih =>
          rw [List.foldl_cons, List.foldl_cons]
          refine ih _ _ ?_
          rw [dictGet_stepBinding, dictGet_stepBinding, h]

theorem dictGet_processBatch_untouched
    (B : List String × Except String (List Binding))
    (m : List (String × RawEntry)) (q : String) (hs : scopedBatch B)
    (hq : q ∉ B.1) :
    dictGet (processBatch m B) q = dictGet m q := by
  obtain ⟨bqs, out⟩ := B
  cases out with
  | error msg =>
      simp only [processBatch]
      rw [dictGet_markBatchError]
      cases h : dictGet m q
      · simp [hq]
      · simp
  | ok bs =>
      simp only [processBatch]
      have hbs : ∀ b ∈ bs, extractQid b.item = "" ∨ extractQid b.item ∈ bqs :=
        hs bs rfl
      clear hs
      induction bs generalizing m with
      | nil => rfl
      | cons b rest ih =>
          rw [List.foldl_cons,
            ih _ hq (fun b2 hb2 => hbs b2 (List.mem_cons_of_mem b hb2)),
            dictGet_stepBinding]
          rcases hbs b (List.mem_cons_self b rest) with h0 | hmem
          · simp [h0]
          · have hne : extractQid b.item ≠ q := fun heq => hq (heq ▸ hmem)
            by_cases h0 : extractQid b.item = "" <;> simp [h0, hne]

theorem dictGet_foldl_processBatch_untouched
    (Bs : List (List String × Except String (List Binding)))
    (m : List (String × RawEntry)) (q : String)
    (hs : ∀ B ∈ Bs, scopedBatch B) (hq : ∀ B ∈ Bs, q ∉ B.1) :
    dictGet (Bs.foldl processBatch m) q = dictGet m q := by
  induction Bs generalizing m with
  | nil => rfl
  | cons B rest ih =>
      rw [List.foldl_cons,
        ih _ (fun B2 h2 => hs B2 (List.mem_cons_of_mem B h2))
          (fun B2 h2 => hq B2 (List.mem_cons_of_mem B h2)),
        dictGet_processBatch_untouched B m q (hs B (List.mem_cons_self B rest))
          (hq B (List.mem_cons_self B rest))]

theorem dictGet_foldl_processBatch_congr
    (Bs : List (List String × Except String (List Binding)))
    (m1 m2 : List (String × RawEntry)) (q : String)
    (h : dictGet m1 q = dictGet m2 q) :
    dictGet (Bs.foldl processBatch m1) q = dictGet (Bs.foldl processBatch m2) q := by
  induction Bs generalizing m1 m2 with
  | nil => exact h
  | cons B rest ih =>
      rw [List.foldl_cons, List.foldl_cons]
      exact ih _ _ (dictGet_processBatch_congr B m1 m2 q h)

/-- C8: a caught exception in the Entity-Detail-Fetcher is scoped to its
batch.  With response bindings scoped to their batches (as the VALUES
clause of the query guarantees) and the failing batch disjoint from the
others, every identifier of the failing batch ends the stage marked with
the fetch-error record, and the entry of every identifier outside the
failing batch is the same as it would be under any alternative outcome of
that batch. -/
theorem details_batch_error_isolation
    (pre post : List (List String × Except String (List Binding)))
    (bqs : List String) (msg : String)
    (hscope : ∀ B ∈ pre ++ post, scopedBatch B)
    (hdisj : ∀ B ∈ pre ++ post, ∀ q ∈ bqs, q ∉ B.1) :
    (∀ q ∈ bqs,
      dictGet (get_wikidata_item_details (pre ++ (bqs, .error msg) :: post)) q =
        some (.err msg)) ∧
    (∀ alt, scopedBatch (bqs, alt) → ∀ q, q ∉ bqs →
      dictGet (get_wikidata_item_details (pre ++ (bqs, .error msg) :: post)) q =
        dictGet (get_wikidata_item_details (pre ++ (bqs, alt) :: post)) q) := by
  have hsplit : ∀ (out : Except String (List Binding)),
      get_wikidata_item_details (pre ++ (bqs, out) :: post) =
        post.foldl processBatch
          (processBatch (pre.foldl processBatch []) (bqs, out)) := by
    intro out
    rw [get_wikidata_item_details, List.foldl_append, List.foldl_cons]
  have hpre : ∀ q ∈ bqs, dictGet (pre.foldl processBatch []) q = none := by
    intro q hq
    rw [dictGet_foldl_processBatch_untouched pre [] q
      (fun B hB => hscope B (List.mem_append_left post hB))
      (fun B hB => hdisj B (List.mem_append_left post hB) q hq)]
    rfl
  constructor
  · intro q hq
    rw [hsplit, dictGet_foldl_processBatch_untouched post _ q
      (fun B hB => hscope B (List.mem_append_right pre hB))
      (fun B hB => hdisj B (List.mem_append_right pre hB) q hq)]
    simp only [processBatch]
    rw [dictGet_markBatchError, hpre q hq]
    simp [hq]
  · intro alt halt q hq
    rw [hsplit, hsplit]
    refine dictGet_foldl_processBatch_congr post _ _ q ?_
    rw [dictGet_processBatch_untouched (bqs, .error msg) _ q ?_ hq,
      dictGet_processBatch_untouched (bqs, alt) _ q halt hq]
    intro bs hbs
    cases hbs

/-- Closed witness for C8: two batches, the second failing; the identifier
of the failing batch carries the fetch-error record, the identifier of the
first batch has the same record as in a run where the failing batch
returned bindings instead. -/
theorem details_batch_error_isolation_witness :
    dictGet
      (get_wikidata_item_details
        [(["Q1"], .ok [⟨some "Q1", some "A", none, none, none⟩]),
         (["Q2"], .error "timeout")]) "Q2" = some (.err "timeout") ∧
    dictGet
      (get_wikidata_item_details
        [(["Q1"], .ok [⟨some "Q1", some "A", none, none, none⟩]),
         (["Q2"], .error "timeout")]) "Q1" =
      dictGet
        (get_wikidata_item_details
          [(["Q1"], .ok [⟨some "Q1", some "A", none, none, none⟩]),
           (["Q2"], .ok [⟨some "Q2", some "B", none, none, none⟩])]) "Q1" :=
  ⟨(details_batch_error_isolation
      [(["Q1"], .ok [⟨some "Q1", some "A", none, none, none⟩])] [] ["Q2"]
      "timeout"
      (by
        intro B hB bs hbs b hb
        simp only [List.mem_append, List.mem_singleton, List.not_mem_nil,
          or_false] at hB
        subst hB
        simp only at hbs
        cases hbs
        simp only [List.mem_singleton] at hb
        subst hb
        right
        decide)
      (by
        intro B hB q hq
        simp only [List.mem_append, List.mem_singleton, List.not_mem_nil,
          or_false] at hB
        subst hB
        simp only [List.mem_singleton] at hq
        subst hq
        decide)).1 "Q2" (List.mem_singleton.mpr rfl),
   (details_batch_error_isolation
      [(["Q1"], .ok [⟨some "Q1", some "A", none, none, none⟩])] [] ["Q2"]
      "timeout"
      (by
        intro B hB bs hbs b hb
        simp only [List.mem_append, List.mem_singleton, List.not_mem_nil,
          or_false] at hB
        subst hB
        simp only at hbs
        cases hbs
        simp only [List.mem_singleton] at hb
        subst hb
        right
        decide)
      (by
        intro B hB q hq
        simp only [List.mem_append, List.mem_singleton, List.not_mem_nil,
          or_false] at hB
        subst hB
        simp only [List.mem_singleton] at hq
        subst hq
        decide)).2
      (.ok [⟨some "Q2", some "B", none, none, none⟩])
      (by
        intro bs hbs b hb
        cases hbs
        simp only [List.mem_singleton] at hb
        subst hb
        right
        decide)
      "Q1" (by decide)⟩

/-- C9: a failed page fetch degrades to the empty identifier list, and a
run whose scrape yields zero identifiers terminates cleanly (the model is a
total function) with the nothing-to-process console message, without
entering stage 2 and with an empty report. -/
theorem mainRun_no_qids :
    (∀ e, get_qids_from_wikitext (.error e) = []) ∧
    (∀ (fetch : Except String String)
      (db : List (List String × Except String (List Binding)))
      (ib : List (Except String (List IsoBinding)))
      (w : List (String × Geometry)),
      get_qids_from_wikitext fetch = [] →
      mainRun fetch db ib w =
        { ranStep2 := false, report := [],
          haltMessage :=
            some "Could not fetch QIDs (Step 1), script cannot run." }) := by
  refine ⟨fun e => rfl, fun fetch db ib w h => ?_⟩
  simp [mainRun, h]

/-- Closed witness for C9: a transport error and a page with no matching
tokens both yield zero identifiers, and both runs halt before stage 2 with
the nothing-to-process message. -/
theorem mainRun_no_qids_witness :
    get_qids_from_wikitext (.error "boom") = [] ∧
    get_qids_from_wikitext (.ok "no identifiers on this page") = [] ∧
    mainRun (.error "boom") [] [] [] =
      { ranStep2 := false, report := [],
        haltMessage :=
          some "Could not fetch QIDs (Step 1), script cannot run." } ∧
    mainRun (.ok "no identifiers on this page") [] [] [] =
      { ranStep2 := false, report := [],
        haltMessage :=
          some "Could not fetch QIDs (Step 1), script cannot run." } := by
  have h1 : get_qids_from_wikitext (.error "boom") = [] := mainRun_no_qids.1 "boom"
  have h2 : get_qids_from_wikitext (.ok "no identifiers on this page") = [] := by
    have htok : (findQidTokens "no identifiers on this page".data).eraseDups = [] := by
      decide
    simp [get_qids_from_wikitext, htok]
  exact ⟨h1, h2, mainRun_no_qids.2 _ [] [] [] h1, mainRun_no_qids.2 _ [] [] [] h2⟩

theorem charsLt_asymm : ∀ as bs, charsLt as bs = true → charsLt bs as = true → False
  | [], [], h1, _ => by simp [charsLt] at h1
  | [], _ :: _, _, h2 => by simp [charsLt] at h2
  | _ :: _, [], h1, _ => by simp [charsLt] at h1
  | a :: as, b :: bs, h1, h2 => by
      simp only [charsLt] at h1 h2
      by_cases hab : a.toNat < b.toNat
      · have hba : ¬b.toNat < a.toNat := by omega
        rw [if_neg hba, if_pos hab] at h2
        simp at h2
      · by_cases hba : b.toNat < a.toNat
        · rw [if_neg hab, if_pos hba] at h1
          simp at h1
        · rw [if_neg hab, if_neg hba] at h1
          rw [if_neg hba, if_neg hab] at h2
          exact charsLt_asymm as bs h1 h2

theorem charsLt_le_trans : ∀ as bs cs, charsLt bs as = false →
    charsLt cs bs = false → charsLt cs as = false
  | [], _, cs, _, _ => by cases cs <;> simp [charsLt]
  | _ :: _, [], _, h1, _ => by simp [charsLt] at h1
  | _ :: _, _ :: _, [], _, h2 => by simp [charsLt] at h2
  | a :: as, b :: bs, c :: cs, h1, h2 => by
      simp only [charsLt] at h1 h2 ⊢
      have hba : ¬b.toNat < a.toNat := by
        by_contra hh
        rw [if_pos hh] at h1
        simp at h1
      have hcb : ¬c.toNat < b.toNat := by
        by_contra hh
        rw [if_pos hh] at h2
        simp at h2
      by_cases hca : c.toNat < a.toNat
      · omega
      · rw [if_neg hca]
        by_cases hac : a.toNat < c.toNat
        · rw [if_pos hac]
        · rw [if_neg hac]
          have hab : ¬a.toNat < b.toNat := by omega
          have hbc : ¬b.toNat < c.toNat := by omega
          rw [if_neg hba, if_neg hab] at h1
          rw [if_neg hcb, if_neg hbc] at h2
          exact charsLt_le_trans as bs cs h1 h2

theorem pyStrLe_total (a b : String) : pyStrLe a b || pyStrLe b a := by
  rw [pyStrLe, pyStrLe, pyStrLt, pyStrLt]
  by_cases h1 : charsLt b.data a.data = true
  · by_cases h2 : charsLt a.data b.data = true
    · exact (charsLt_asymm _ _ h2 h1).elim
    · simp [h2]
  · simp [h1]

theorem pyStrLe_trans (a b c : String) (h1 : pyStrLe a b = true)
    (h2 : pyStrLe b c = true) : pyStrLe a c = true := by
  rw [pyStrLe, pyStrLt] at h1 h2 ⊢
  simp only [Bool.not_eq_true'] at h1 h2 ⊢
  exact charsLt_le_trans a.data b.data c.data h1 h2

theorem keyLE_total (x y : Nat × ℚ × String) : keyLE x y || keyLE y x := by
  obtain ⟨x1, x2, x3⟩ := x
  obtain ⟨y1, y2, y3⟩ := y
  simp only [keyLE]
  by_cases h1 : x1 = y1
  · subst h1
    simp only [ne_eq, not_true_eq_false, if_false, reduceIte]
    by_cases h2 : x2 = y2
    · subst h2
      simp [pyStrLe_total x3 y3]
    · rcases Ne.lt_or_lt h2 with h | h <;> simp [h2, Ne.symm h2, h]
  · rcases Ne.lt_or_lt h1 with h | h <;> simp [h1, Ne.symm h1, h]

theorem keyLE_trans (x y z : Nat × ℚ × String) (hxy : keyLE x y = true)
    (hyz : keyLE y z = true) : keyLE x z = true := by
  obtain ⟨x1, x2, x3⟩ := x
  obtain ⟨y1, y2, y3⟩ := y
  obtain ⟨z1, z2, z3⟩ := z
  simp only [keyLE] at hxy hyz ⊢
  by_cases h1 : x1 = y1 <;> by_cases h2 : y1 = z1
  · subst h1
    subst h2
    simp only [ne_eq, not_true_eq_false, if_false, reduceIte] at hxy hyz ⊢
    by_cases g1 : x2 = y2 <;> by_cases g2 : y2 = z2
    · subst g1
      subst g2
      simp only [ne_eq, not_true_eq_false, if_false, reduceIte] at hxy hyz ⊢
      exact pyStrLe_trans x3 y3 z3 hxy hyz
    · subst g1
      simp only [g2, if_true, ne_eq, not_false_eq_true, reduceIte] at hyz ⊢
      exact hyz
    · subst g2
      simp only [g1, if_true, ne_eq, not_false_eq_true, reduceIte] at hxy ⊢
      exact hxy
    · simp only [g1, g2, ne_eq, not_false_eq_true, if_true,
        decide_eq_true_eq, reduceIte] at hxy hyz
      have h3 : x2 < z2 := lt_trans hxy hyz
      simp [ne_of_lt h3, h3]
  · subst h1
    simp only [h2, ne_eq, not_false_eq_true, if_true, decide_eq_true_eq,
      reduceIte] at hyz ⊢
    exact hyz
  · subst h2
    simp only [h1, ne_eq, not_false_eq_true, if_true, decide_eq_true_eq,
      reduceIte] at hxy ⊢
    exact hxy
  · simp only [h1, h2, ne_eq, not_false_eq_true, if_true,
      decide_eq_true_eq, reduceIte] at hxy hyz
    have h3 : x1 < z1 := Nat.lt_trans hxy hyz
    simp [Nat.ne_of_lt h3, h3]

theorem sortLE_total (a b : ResRec) : sortLE a b || sortLE b a :=
  keyLE_total (sortKey a) (sortKey b)

theorem sortLE_trans (a b c : ResRec) (h1 : sortLE a b = true)
    (h2 : sortLE b c = true) : sortLE a c = true :=
  keyLE_trans (sortKey a) (sortKey b) (sortKey c) h1 h2

theorem mergeSort_pair {α : Type} (le : α → α → Bool) (a b : α) :
    List.mergeSort [a, b] le = if le a b then [a, b] else [b, a] := by
  rw [List.mergeSort]
  by_cases h : le a b <;> simp [List.merge, h]

theorem mergeSort_triple {α : Type} (le : α → α → Bool) (a b c : α) :
    List.mergeSort [a, b, c] le = List.merge (List.mergeSort [a, b] le) [c] le := by
  rw [List.mergeSort]
  simp [List.mergeSort]

/-- Counterexample to C5 as stated: two records that tie under the keys the
claim enumerates (neither Outside nor Inside, so same bucket, and no score
key applies) do not keep their original relative order: the report sorts
the other-statuses bucket by status text, so the error record overtakes the
missing-country record that preceded it. -/
theorem report_sort_not_stable_cex :
    check_coordinates
      [("Q1", .det ⟨some "L", some ⟨0, 0⟩, none, none⟩), ("Q2", .err "x")] [] =
      [⟨"Q2", some "[No Label]", none, none, some "[No Country Label]",
        "Error in Step 2 (x)", none⟩,
       ⟨"Q1", some "L", some ⟨0, 0⟩, none, none, "Missing Country (P17)",
        none⟩] ∧
    ("Error in Step 2 (x)" ≠ "Outside" ∧ "Error in Step 2 (x)" ≠ "Inside") ∧
    ("Missing Country (P17)" ≠ "Outside" ∧ "Missing Country (P17)" ≠ "Inside") := by
  refine ⟨?_, by decide, by decide⟩
  rw [check_coordinates]
  have hmap :
      ([("Q1", RawEntry.det ⟨some "L", some ⟨0, 0⟩, none, none⟩),
        ("Q2", RawEntry.err "x")]).map (fun p => checkOne [] p.1 p.2) =
      [⟨"Q1", some "L", some ⟨0, 0⟩, none, none, "Missing Country (P17)",
        none⟩,
       ⟨"Q2", some "[No Label]", none, none, some "[No Country Label]",
        "Error in Step 2 (x)", none⟩] := by decide
  rw [hmap, mergeSort_pair]
  have hle : sortLE
      ⟨"Q1", some "L", some ⟨0, 0⟩, none, none, "Missing Country (P17)", none⟩
      ⟨"Q2", some "[No Label]", none, none, some "[No Country Label]",
        "Error in Step 2 (x)", none⟩ = false := by decide
  rw [hle]
  simp

/-- C5 (amended): the report is the stable sort of the per-item records by
the code key: Outside records first ordered by descending score, then
Inside records, then all other records ordered by ascending status text;
the output is a permutation of the per-item records, it is sorted by that
key, and any two records in key order keep their relative order (stability,
which for ties inside the other-statuses bucket means ties of the full key
including the status text). -/
theorem report_sort_spec (item_data : List (String × RawEntry))
    (geoms : List (String × Geometry)) :
    (check_coordinates item_data geoms).Perm
      (item_data.map (fun p => checkOne geoms p.1 p.2)) ∧
    (check_coordinates item_data geoms).Pairwise
      (fun a b => sortLE a b = true) ∧
    (∀ a b, sortLE a b = true →
      List.Sublist [a, b] (item_data.map (fun p => checkOne geoms p.1 p.2)) →
      List.Sublist [a, b] (check_coordinates item_data geoms)) := by
  refine ⟨List.mergeSort_perm _ sortLE, ?_, ?_⟩
  · exact List.sorted_mergeSort (fun a b c => sortLE_trans a b c)
      (fun a b => sortLE_total a b) _
  · intro a b hab hsub
    exact List.pair_sublist_mergeSort (fun a b c => sortLE_trans a b c)
      (fun a b => sortLE_total a b) hab hsub

/-- Closed witness for the amended C5: on the example of the specification
(two Outside records with scores 5 and 1, one Inside record), the pair of
Outside records keeps its order in the report, and the full report is
exactly Outside score 5, then Outside score 1, then Inside. -/
theorem report_sort_spec_witness :
    List.Sublist
      [⟨"QA", some "A", some ⟨0, 5⟩, some "QC", some "C", "Outside", some 5⟩,
       ⟨"QB", some "B", some ⟨0, 1⟩, some "QC", some "C", "Outside", some 1⟩]
      (check_coordinates
        [("QA", .det ⟨some "A", some ⟨0, 5⟩, some "QC", some "C"⟩),
         ("QB", .det ⟨some "B", some ⟨0, 1⟩, some "QC", some "C"⟩),
         ("QD", .det ⟨some "D", some ⟨0, 2⟩, some "QE", some "E"⟩)]
        [("QC", outsideGeom), ("QE", insideGeom)]) ∧
    check_coordinates
      [("QA", .det ⟨some "A", some ⟨0, 5⟩, some "QC", some "C"⟩),
       ("QB", .det ⟨some "B", some ⟨0, 1⟩, some "QC", some "C"⟩),
       ("QD", .det ⟨some "D", some ⟨0, 2⟩, some "QE", some "E"⟩)]
      [("QC", outsideGeom), ("QE", insideGeom)] =
      [⟨"QA", some "A", some ⟨0, 5⟩, some "QC", some "C", "Outside", some 5⟩,
       ⟨"QB", some "B", some ⟨0, 1⟩, some "QC", some "C", "Outside", some 1⟩,
       ⟨"QD", some "D", some ⟨0, 2⟩, some "QE", some "E", "Inside", some 0⟩] := by
  have hmap :
      ([("QA", RawEntry.det ⟨some "A", some ⟨0, 5⟩, some "QC", some "C"⟩),
        ("QB", RawEntry.det ⟨some "B", some ⟨0, 1⟩, some "QC", some "C"⟩),
        ("QD", RawEntry.det ⟨some "D", some ⟨0, 2⟩, some "QE", some "E"⟩)]).map
        (fun p => checkOne [("QC", outsideGeom), ("QE", insideGeom)] p.1 p.2) =
      [⟨"QA", some "A", some ⟨0, 5⟩, some "QC", some "C", "Outside", some 5⟩,
       ⟨"QB", some "B", some ⟨0, 1⟩, some "QC", some "C", "Outside", some 1⟩,
       ⟨"QD", some "D", some ⟨0, 2⟩, some "QE", some "E", "Inside", some 0⟩] := by
    decide
  constructor
  · refine (report_sort_spec _ _).2.2 _ _ (by decide) ?_
    rw [hmap]
    exact List.sublist_append_left _ _
  · rw [check_coordinates, hmap, mergeSort_triple, mergeSort_pair]
    have h1 : sortLE
        ⟨"QA", some "A", some ⟨0, 5⟩, some "QC", some "C", "Outside", some 5⟩
        ⟨"QB", some "B", some ⟨0, 1⟩, some "QC", some "C", "Outside", some 1⟩ =
        true := by decide
    have h2 : sortLE
        ⟨"QA", some "A", some ⟨0, 5⟩, some "QC", some "C", "Outside", some 5⟩
        ⟨"QD", some "D", some ⟨0, 2⟩, some "QE", some "E", "Inside", some 0⟩ =
        true := by decide
    have h3 : sortLE
        ⟨"QB", some "B", some ⟨0, 1⟩, some "QC", some "C", "Outside", some 1⟩
        ⟨"QD", some "D", some ⟨0, 2⟩, some "QE", some "E", "Inside", some 0⟩ =
        true := by decide
    rw [h1]
    simp [List.merge, h2, h3]

theorem dictGet_mem {α : Type} (m : List (String × α)) (k : String) (v : α)
    (h : dictGet m k = some v) : (k, v) ∈ m := by
  induction m with
  | nil => simp [dictGet] at h
  | cons p rest ih =>
      obtain ⟨k0, v0⟩ := p
      by_cases hk : k0 = k
      · subst hk
        rw [dictGet, if_pos rfl] at h
        injection h with h
        subst h
        exact List.mem_cons_self _ _
      · rw [dictGet, if_neg hk] at h
        exact List.mem_cons_of_mem _ (ih h)

theorem usableGeom_cases (g : Geometry) (gg : GeomData)
    (h : usableGeom g = some gg) : gg = g.self ∨ gg = g.buffer0 := by
  rw [usableGeom] at h
  by_cases h1 : g.self.is_valid
  · rw [if_pos h1] at h
    injection h with h
    exact Or.inl h.symm
  · rw [if_neg h1] at h
    by_cases h2 : (g.buffer0.is_valid && !g.buffer0.is_empty) = true
    · rw [if_pos h2] at h
      injection h with h
      exact Or.inr h.symm
    · rw [if_neg h2] at h
      cases h

theorem errStatus_ne (msg : String) :
    "Error in Step 2 (" ++ msg ++ ")" ≠ "Inside" ∧
    "Error in Step 2 (" ++ msg ++ ")" ≠ "Outside" := by
  have h17 : ("Error in Step 2 (" : String).length = 17 := by decide
  have h1r : (")" : String).length = 1 := by decide
  have hIn : ("Inside" : String).length = 6 := by decide
  have hOut : ("Outside" : String).length = 7 := by decide
  constructor
  · intro h
    have hlen := congrArg String.length h
    rw [String.length_append, String.length_append, h17, h1r, hIn] at hlen
    omega
  · intro h
    have hlen := congrArg String.length h
    rw [String.length_append, String.length_append, h17, h1r, hOut] at hlen
    omega

theorem statusScore_shape (geoms : List (String × Geometry)) (entry : RawEntry) :
    (∃ msg, statusScore geoms entry = ("Error in Step 2 (" ++ msg ++ ")", none)) ∨
    statusScore geoms entry = ("Missing Coordinate (P625)", none) ∨
    statusScore geoms entry = ("Missing Country (P17)", none) ∨
    statusScore geoms entry =
      ("Missing Country Geometry (No ISO code or NE match)", none) ∨
    statusScore geoms entry = ("Invalid Country Geometry (NE)", none) ∨
    statusScore geoms entry = ("Inside", some 0) ∨
    (∃ (cq : String) (g : Geometry) (gg : GeomData) (c : Coord),
      dictGet geoms cq = some g ∧ usableGeom g = some gg ∧
      statusScore geoms entry = ("Outside", some (gg.distance (c.lon, c.lat)))) := by
  cases entry with
  | err msg => exact Or.inl ⟨msg, rfl⟩
  | det r =>
      cases hc : r.coordinate with
      | none =>
          right; left
          simp [statusScore, hc]
      | some c =>
          cases hcq : r.country_qid with
          | none =>
              right; right; left
              simp [statusScore, hc, hcq]
          | some cq =>
              by_cases hemp : cq = ""
              · right; right; left
                simp [statusScore, hc, hcq, hemp]
              · cases hg : dictGet geoms cq with
                | none =>
                    right; right; right; left
                    simp [statusScore, hc, hcq, hemp, hg]
                | some g =>
                    by_cases hge : g.self.is_empty = true
                    · right; right; right; left
                      simp [statusScore, hc, hcq, hemp, hg, hge]
                    · cases hu : usableGeom g with
                      | none =>
                          right; right; right; right; left
                          simp [statusScore, hc, hcq, hemp, hg, hge, hu]
                      | some gg =>
                          by_cases hcont : gg.contains (c.lon, c.lat) = true
                          · right; right; right; right; right; left
                            simp [statusScore, hc, hcq, hemp, hg, hge, hu, hcont]
                          · right; right; right; right; right; right
                            exact ⟨cq, g, gg, c, hg, hu, by
                              simp [statusScore, hc, hcq, hemp, hg, hge, hu,
                                hcont]⟩

/-- Counterexample to C6 as stated: a record whose containment check
succeeds gets status Inside with score 0.0 — a present score on a
non-Outside record, where the claim requires None for every status other
than Outside. -/
theorem inside_score_present_cex :
    (check_coordinates
        [("Q1", .det ⟨some "L", some ⟨0, 0⟩, some "Q2", some "C"⟩)]
        [("Q2", insideGeom)]).map (fun r => (r.status, r.score)) =
      [("Inside", some (0 : ℚ))] ∧ some (0 : ℚ) ≠ none := by
  constructor
  · rw [check_coordinates]
    have hmap :
        ([("Q1", RawEntry.det ⟨some "L", some ⟨0, 0⟩, some "Q2", some "C"⟩)]).map
          (fun p => checkOne [("Q2", insideGeom)] p.1 p.2) =
        [⟨"Q1", some "L", some ⟨0, 0⟩, some "Q2", some "C", "Inside",
          some 0⟩] := by decide
    rw [hmap, List.mergeSort_singleton]
    decide
  · decide

/-- C6 (amended): for every emitted record, the score is present exactly
when the status is Inside or Outside: an Inside record carries score 0, an
Outside record carries a non-negative score (given that the geometry
distances are non-negative, as shapely guarantees), and every other status
carries no score. -/
theorem score_presence (item_data : List (String × RawEntry))
    (geoms : List (String × Geometry))
    (hd : ∀ p ∈ geoms, (∀ pt, 0 ≤ p.2.self.distance pt) ∧
      (∀ pt, 0 ≤ p.2.buffer0.distance pt)) :
    ∀ rec ∈ check_coordinates item_data geoms,
      (rec.status = "Inside" → rec.score = some 0) ∧
      (rec.status = "Outside" → ∃ s, rec.score = some s ∧ 0 ≤ s) ∧
      (rec.status ≠ "Inside" → rec.status ≠ "Outside" → rec.score = none) := by
  intro rec hrec
  rw [check_coordinates, List.mem_mergeSort] at hrec
  obtain ⟨⟨q, e⟩, hmem, rfl⟩ := List.mem_map.mp hrec
  have hstatus : (checkOne geoms q e).status = (statusScore geoms e).1 := by
    cases e <;> simp [checkOne]
  have hscore : (checkOne geoms q e).score = (statusScore geoms e).2 := by
    cases e <;> simp [checkOne]
  rw [hstatus, hscore]
  rcases statusScore_shape geoms e with ⟨msg, h⟩ | h | h | h | h | h |
    ⟨cq, g, gg, c, hg, hgg, h⟩ <;> rw [h]
  · exact ⟨fun hI => absurd hI (errStatus_ne msg).1,
      fun hO => absurd hO (errStatus_ne msg).2, fun _ _ => rfl⟩
  · exact ⟨fun hI => absurd hI (by decide), fun hO => absurd hO (by decide),
      fun _ _ => rfl⟩
  · exact ⟨fun hI => absurd hI (by decide), fun hO => absurd hO (by decide),
      fun _ _ => rfl⟩
  · exact ⟨fun hI => absurd hI (by decide), fun hO => absurd hO (by decide),
      fun _ _ => rfl⟩
  · exact ⟨fun hI => absurd hI (by decide), fun hO => absurd hO (by decide),
      fun _ _ => rfl⟩
  · exact ⟨fun _ => rfl, fun hO => absurd hO (by decide),
      fun hI _ => absurd rfl hI⟩
  · refine ⟨fun hI => ?_, fun _ => ?_, fun _ hO => absurd rfl hO⟩
    · have hI2 : ("Outside" : String) = "Inside" := hI
      exact absurd hI2 (by decide)
    refine ⟨gg.distance (c.lon, c.lat), rfl, ?_⟩
    rcases usableGeom_cases g gg hgg with hgs | hgb
    · rw [hgs]
      exact (hd (cq, g) (dictGet_mem geoms cq g hg)).1 (c.lon, c.lat)
    · rw [hgb]
      exact (hd (cq, g) (dictGet_mem geoms cq g hg)).2 (c.lon, c.lat)

/-- Closed witness for the amended C6: the score-presence theorem applied
to the Inside record of a concrete run. -/
theorem score_presence_witness :
    ((⟨"Q1", some "L", some ⟨0, 0⟩, some "Q2", some "C", "Inside", some 0⟩ :
        ResRec).status = "Inside" →
      (⟨"Q1", some "L", some ⟨0, 0⟩, some "Q2", some "C", "Inside", some 0⟩ :
        ResRec).score = some 0) ∧
    ((⟨"Q1", some "L", some ⟨0, 0⟩, some "Q2", some "C", "Inside", some 0⟩ :
        ResRec).status = "Outside" →
      ∃ s, (⟨"Q1", some "L", some ⟨0, 0⟩, some "Q2", some "C", "Inside",
        some 0⟩ : ResRec).score = some s ∧ 0 ≤ s) ∧
    ((⟨"Q1", some "L", some ⟨0, 0⟩, some "Q2", some "C", "Inside", some 0⟩ :
        ResRec).status ≠ "Inside" →
      (⟨"Q1", some "L", some ⟨0, 0⟩, some "Q2", some "C", "Inside", some 0⟩ :
        ResRec).status ≠ "Outside" →
      (⟨"Q1", some "L", some ⟨0, 0⟩, some "Q2", some "C", "Inside", some 0⟩ :
        ResRec).score = none) :=
  score_presence
    [("Q1", .det ⟨some "L", some ⟨0, 0⟩, some "Q2", some "C"⟩)]
    [("Q2", insideGeom)]
    (by
      intro p hp
      simp only [List.mem_singleton] at hp
      subst hp
      exact ⟨fun pt => (by decide : (0 : ℚ) ≤ 3),
        fun pt => (by decide : (0 : ℚ) ≤ 3)⟩)
    ⟨"Q1", some "L", some ⟨0, 0⟩, some "Q2", some "C", "Inside", some 0⟩
    (by
      rw [check_coordinates, List.mem_mergeSort]
      decide)

theorem digit_ne (c : Char) (h : isDigitChar c = true) :
    pyIsSpace c = false ∧ c ≠ '-' ∧ c ≠ '+' ∧ c ≠ '.' ∧ c ≠ ')' := by
  refine ⟨?_, ?_, ?_, ?_, ?_⟩
  · by_contra hsp
    rw [Bool.not_eq_false] at hsp
    simp only [pyIsSpace, Bool.or_eq_true, decide_eq_true_eq] at hsp
    rcases hsp with ((((rfl | rfl) | rfl) | rfl) | rfl) | rfl <;>
      exact absurd h (by decide)
  all_goals
    intro heq
    subst heq
    exact absurd h (by decide)

theorem takeWhile_digits_append (ds rest : List Char)
    (hds : ∀ c ∈ ds, isDigitChar c = true)
    (hrest : ∀ c, rest.head? = some c → isDigitChar c = false) :
    (ds ++ rest).takeWhile isDigitChar = ds ∧
    (ds ++ rest).dropWhile isDigitChar = rest := by
  induction ds with
  | nil =>
      simp only [List.nil_append]
      cases rest with
      | nil => simp
      | cons c t =>
          have hc := hrest c rfl
          simp [List.takeWhile_cons, List.dropWhile_cons, hc]
  | cons d ds2 ih =>
      have hd := hds d (List.mem_cons_self d ds2)
      have ih2 := ih (fun c hc => hds c (List.mem_cons_of_mem d hc))
      simp [List.takeWhile_cons, List.dropWhile_cons, hd, ih2.1, ih2.2]

theorem parseNumAfterSign_render (intDs : List Char) (frac : Option (List Char))
    (rest : List Char)
    (hint : ∀ c ∈ intDs, isDigitChar c = true)
    (hfrac : ∀ f, frac = some f → f ≠ [] ∧ ∀ c ∈ f, isDigitChar c = true)
    (hne : frac = none → intDs ≠ [])
    (hrest : ∀ c, rest.head? = some c → isDigitChar c = false ∧ c ≠ '.') :
    parseNumAfterSign ((intDs ++ fracChars frac) ++ rest) =
      some (numTokMag ⟨none, intDs, frac⟩, rest) := by
  cases frac with
  | none =>
      simp only [fracChars, List.append_nil]
      obtain ⟨ht, hd⟩ := takeWhile_digits_append intDs rest hint
        (fun c hc => (hrest c hc).1)
      simp only [parseNumAfterSign, ht, hd]
      rcases rest with _ | ⟨c, t⟩
      · simp [hne rfl, numTokMag]
      · have hc := hrest c rfl
        split
        · next heq =>
            rw [List.cons.injEq] at heq
            exact absurd heq.1 hc.2
        · simp [hne rfl, numTokMag]
  | some f =>
      obtain ⟨hfne, hfd⟩ := hfrac f rfl
      have hsplit : (intDs ++ fracChars (some f)) ++ rest =
          intDs ++ ('.' :: (f ++ rest)) := by
        simp [fracChars]
      rw [hsplit]
      obtain ⟨ht, hd⟩ := takeWhile_digits_append intDs ('.' :: (f ++ rest)) hint
        (fun c hc => by
          rw [List.head?_cons] at hc
          injection hc with hc
          subst hc
          decide)
      simp only [parseNumAfterSign, ht, hd]
      obtain ⟨ht2, hd2⟩ := takeWhile_digits_append f rest hfd
        (fun c hc => (hrest c hc).1)
      simp only [ht2, hd2]
      simp [hfne, numTokMag]

theorem parseNum_cons_not_sign (c : Char) (l : List Char) (h1 : c ≠ '-')
    (h2 : c ≠ '+') : parseNum (c :: l) = parseNumAfterSign (c :: l) := by
  unfold parseNum
  split
  · next rest heq =>
      rw [List.cons.injEq] at heq
      exact absurd heq.1 h1
  · next rest heq =>
      rw [List.cons.injEq] at heq
      exact absurd heq.1 h2
  · rfl

theorem wfNumTok_parts (t : NumTok) (h : wfNumTok t = true) :
    (∀ c ∈ t.intDs, isDigitChar c = true) ∧
    (∀ f, t.frac = some f → f ≠ [] ∧ ∀ c ∈ f, isDigitChar c = true) ∧
    (t.frac = none → t.intDs ≠ []) := by
  obtain ⟨sign, intDs, frac⟩ := t
  simp only [wfNumTok, Bool.and_eq_true, List.all_eq_true] at h
  obtain ⟨hall, hrest⟩ := h
  refine ⟨hall, ?_, ?_⟩
  · intro f hf
    simp only at hf
    subst hf
    simp only [Bool.and_eq_true, Bool.not_eq_true', List.all_eq_true] at hrest
    refine ⟨?_, hrest.2⟩
    intro hnil
    subst hnil
    simp at hrest
  · intro hf
    simp only at hf
    subst hf
    simp only [Bool.not_eq_true'] at hrest
    intro hnil
    subst hnil
    simp at hrest

theorem parseNum_render (t : NumTok) (rest : List Char) (hwf : wfNumTok t = true)
    (hrest : ∀ c, rest.head? = some c → isDigitChar c = false ∧ c ≠ '.') :
    parseNum (renderNumChars t ++ rest) = some (numTokVal t, rest) := by
  obtain ⟨hint, hfrac, hnone⟩ := wfNumTok_parts t hwf
  obtain ⟨sign, intDs, frac⟩ := t
  have hbase := parseNumAfterSign_render intDs frac rest hint hfrac hnone hrest
  cases sign with
  | some b =>
      cases b with
      | true =>
          have hchars : renderNumChars ⟨some true, intDs, frac⟩ ++ rest =
              '-' :: ((intDs ++ fracChars frac) ++ rest) := by
            simp [renderNumChars, signChars]
          rw [hchars, parseNum, hbase]
          simp [numTokVal, numTokMag]
      | false =>
          have hchars : renderNumChars ⟨some false, intDs, frac⟩ ++ rest =
              '+' :: ((intDs ++ fracChars frac) ++ rest) := by
            simp [renderNumChars, signChars]
          rw [hchars, parseNum, hbase]
          simp [numTokVal, numTokMag]
  | none =>
      have hchars : renderNumChars ⟨none, intDs, frac⟩ ++ rest =
          (intDs ++ fracChars frac) ++ rest := by
        simp [renderNumChars, signChars]
      rw [hchars]
      have hval : numTokVal ⟨none, intDs, frac⟩ = numTokMag ⟨none, intDs, frac⟩ := by
        simp [numTokVal]
      cases intDs with
      | cons d ds2 =>
          have hd := hint d (List.mem_cons_self d ds2)
          have hsign := digit_ne d hd
          rw [List.cons_append, List.cons_append,
            parseNum_cons_not_sign d _ hsign.2.1 hsign.2.2.1]
          rw [← List.cons_append, ← List.cons_append, hbase, hval]
      | nil =>
          cases frac with
          | none => exact absurd rfl (hnone rfl)
          | some f =>
              have hchars2 : (([] ++ fracChars (some f)) ++ rest) =
                  '.' :: (f ++ rest) := by
                simp [fracChars]
              rw [hchars2, parseNum_cons_not_sign '.' _ (by decide) (by decide),
                ← hchars2, hbase, hval]

theorem renderNumChars_head (t : NumTok) (hwf : wfNumTok t = true) :
    ∃ c cs2, renderNumChars t = c :: cs2 ∧ pyIsSpace c = false := by
  obtain ⟨hint, hfrac, hnone⟩ := wfNumTok_parts t hwf
  obtain ⟨sign, intDs, frac⟩ := t
  cases sign with
  | some b =>
      cases b with
      | true =>
          exact ⟨'-', intDs ++ fracChars frac,
            by simp [renderNumChars, signChars], by decide⟩
      | false =>
          exact ⟨'+', intDs ++ fracChars frac,
            by simp [renderNumChars, signChars], by decide⟩
  | none =>
      cases intDs with
      | cons d ds2 =>
          refine ⟨d, ds2 ++ fracChars frac,
            by simp [renderNumChars, signChars], ?_⟩
          exact (digit_ne d (hint d (List.mem_cons_self d ds2))).1
      | nil =>
          cases frac with
          | none => exact absurd rfl (hnone rfl)
          | some f =>
              exact ⟨'.', f, by simp [renderNumChars, signChars, fracChars],
                by decide⟩

theorem parsePoint_render (tlon tlat : NumTok) (h1 : wfNumTok tlon = true)
    (h2 : wfNumTok tlat = true) :
    parsePointStr (mkPointString tlon tlat) =
      some (numTokVal tlon, numTokVal tlat) := by
  rw [parsePointStr, mkPointString]
  have hdata : ("Point(" ++ renderNum tlon ++ " " ++ renderNum tlat ++ ")").data =
      'P' :: 'o' :: 'i' :: 'n' :: 't' :: '(' ::
        (renderNumChars tlon ++ ' ' :: (renderNumChars tlat ++ [')'])) := by
    simp [String.data_append, renderNum]
  rw [hdata]
  simp only [parsePointChars]
  obtain ⟨c1, cs1, hr1, hs1⟩ := renderNumChars_head tlon h1
  have hdrop1 : dropSpaces (renderNumChars tlon ++ ' ' :: (renderNumChars tlat ++ [')'])) =
      renderNumChars tlon ++ ' ' :: (renderNumChars tlat ++ [')']) := by
    rw [hr1, List.cons_append, dropSpaces, List.dropWhile_cons, hs1]
    simp
  rw [hdrop1]
  have hp1 := parseNum_render tlon (' ' :: (renderNumChars tlat ++ [')'])) h1
    (fun c hc => by
      rw [List.head?_cons] at hc
      injection hc with hc
      subst hc
      exact ⟨by decide, by decide⟩)
  have hp2 := parseNum_render tlat [')'] h2
    (fun c hc => by
      rw [List.head?_cons] at hc
      injection hc with hc
      subst hc
      exact ⟨by decide, by decide⟩)
  obtain ⟨c2, cs2, hr2, hs2⟩ := renderNumChars_head tlat h2
  have hdrop2 : dropSpaces (renderNumChars tlat ++ [')']) =
      renderNumChars tlat ++ [')'] := by
    rw [hr2, List.cons_append, dropSpaces, List.dropWhile_cons, hs2]
    simp
  have hsp : pyIsSpace ' ' = true := by decide
  have hrp : dropSpaces [')'] = [')'] := by decide
  simp only [hp1, hsp, if_true, hdrop2, hp2, hrp]

/-- C7: coordinate round-trip.  For every serialization Point(lon lat)
built from number tokens of the regex shape, the fetcher parser accepts it
and returns exactly the (lat, lon) pair denoted by the serialization when
lat lies in [-90, 90] and lon in [-180, 180]; when the values fall outside
these ranges the serialization is discarded (with a console warning) and
yields no coordinate. -/
theorem coordinate_roundtrip (tlon tlat : NumTok) (h1 : wfNumTok tlon = true)
    (h2 : wfNumTok tlat = true) :
    ((-90 ≤ numTokVal tlat ∧ numTokVal tlat ≤ 90 ∧
      -180 ≤ numTokVal tlon ∧ numTokVal tlon ≤ 180) →
      parseCoordinate (some (mkPointString tlon tlat)) =
        some ⟨numTokVal tlat, numTokVal tlon⟩) ∧
    (¬(-90 ≤ numTokVal tlat ∧ numTokVal tlat ≤ 90 ∧
       -180 ≤ numTokVal tlon ∧ numTokVal tlon ≤ 180) →
      parseCoordinate (some (mkPointString tlon tlat)) = none) := by
  have hnemp : (mkPointString tlon tlat = "") = False := by
    simp only [eq_iff_iff, iff_false]
    intro h
    have hlen := congrArg String.length h
    rw [mkPointString, String.length_append, String.length_append,
      String.length_append, String.length_append] at hlen
    have hP : ("Point(" : String).length = 6 := by decide
    have hsp : (" " : String).length = 1 := by decide
    have hrp : (")" : String).length = 1 := by decide
    have hz : ("" : String).length = 0 := by decide
    rw [hP, hsp, hrp, hz] at hlen
    omega
  constructor <;> intro hrange <;>
    simp only [parseCoordinate, hnemp, if_false,
      parsePoint_render tlon tlat h1 h2, hrange, if_true, if_false,
      not_false_eq_true]
  simp [hrange]

/-- Closed witness for C7: the serialization Point(-105.96 35.68) parses to
latitude 35.68 and longitude -105.96 (the example point of the
specification), and the out-of-range serialization Point(95 95) is
discarded. -/
theorem coordinate_roundtrip_witness :
    mkPointString ⟨some true, ['1', '0', '5'], some ['9', '6']⟩
        ⟨none, ['3', '5'], some ['6', '8']⟩ = "Point(-105.96 35.68)" ∧
    parseCoordinate (some "Point(-105.96 35.68)") =
      some ⟨numTokVal ⟨none, ['3', '5'], some ['6', '8']⟩,
        numTokVal ⟨some true, ['1', '0', '5'], some ['9', '6']⟩⟩ ∧
    numTokVal ⟨none, ['3', '5'], some ['6', '8']⟩ = mkRat 3568 100 ∧
    numTokVal ⟨some true, ['1', '0', '5'], some ['9', '6']⟩ =
      -mkRat 10596 100 ∧
    parseCoordinate
      (some (mkPointString ⟨none, ['9', '5'], none⟩ ⟨none, ['9', '5'], none⟩)) =
      none := by
  refine ⟨by decide, ?_, by decide, by decide, ?_⟩
  · have h := (coordinate_roundtrip ⟨some true, ['1', '0', '5'], some ['9', '6']⟩
      ⟨none, ['3', '5'], some ['6', '8']⟩ (by decide) (by decide)).1
      ⟨by decide, by decide, by decide, by decide⟩
    rw [show mkPointString ⟨some true, ['1', '0', '5'], some ['9', '6']⟩
        ⟨none, ['3', '5'], some ['6', '8']⟩ = "Point(-105.96 35.68)" from
      by decide] at h
    exact h
  · exact (coordinate_roundtrip ⟨none, ['9', '5'], none⟩
      ⟨none, ['9', '5'], none⟩ (by decide) (by decide)).2
      (by
        intro hr
        have := hr.2.1
        rw [show numTokVal ⟨none, ['9', '5'], none⟩ = mkRat 95 1 from by decide]
          at this
        exact absurd this (by decide))

end CoordChecker
